import Mathlib

/-
Verification of the HotShot Query Service update module
(`src/data_source/update.rs`): the decide-event certificate/leaf
reconstruction, the per-leaf ingestion loop with its dispersal and payload
policies, the genesis dispersal synthesizer, and the versioned data source
contract. The Rust code is shallowly embedded: async storage calls become
explicit effect traces plus an outcome, storage faults are injected by an
oracle, and the erasure-coding capability is an abstract function supplied
in the context.
-/

namespace HQS

/-- A quorum certificate. `justifies` is the commitment of the leaf this
certificate finalizes (in the source this linkage is checked by
`LeafQueryData::new`). -/
structure QC where
  view_number : Nat
  justifies : Nat
deriving DecidableEq, Repr

/-- A block header, carrying the payload commitment and block number used by
`update` and `store_genesis_vid`. -/
structure BlockHeader where
  payload_commitment : Nat
  block_number : Nat
deriving DecidableEq, Repr

/-- A consensus leaf as used by `update.rs`: view number, the
`justify_qc` finalizing its parent, its header, its optional payload, and its
own commitment (target of a justifying certificate). -/
structure Leaf where
  view_number : Nat
  justify_qc : QC
  block_header : BlockHeader
  block_payload : Option Nat
  commitment : Nat
deriving DecidableEq, Repr

/-- This node's dispersal share as carried in `LeafInfo.vid_share`:
the `common` parameters and the local `share`. -/
structure VidShare where
  common : Nat
  share : Nat
deriving DecidableEq, Repr

/-- `hotshot_types::event::LeafInfo`, restricted to the fields `update`
destructures: the leaf and its optional dispersal share. -/
structure LeafInfo where
  leaf : Leaf
  vid_share : Option VidShare
deriving DecidableEq, Repr

/-- `hotshot::types::EventType`, restricted to the branching `update`
performs: the `Decide` variant with its newest-first leaf chain and the
finalizing certificate `qc`, and a tag covering every other event kind. -/
inductive EventType where
  | Decide (leaf_chain : List LeafInfo) (qc : QC)
  | Other (kind : Nat)
deriving DecidableEq, Repr

/-- `hotshot::types::Event`, restricted to the `event` field `update`
inspects. -/
structure Event where
  view_number : Nat
  event : EventType
deriving DecidableEq, Repr

/-- `LeafQueryData`: a leaf paired with the certificate that justifies it. -/
structure LeafQueryData where
  leaf : Leaf
  qc : QC
deriving DecidableEq, Repr

/-- `VidCommonQueryData::new(header, common)`. -/
structure VidCommonQueryData where
  header : BlockHeader
  common : Nat
deriving DecidableEq, Repr

/-- `BlockQueryData::new(header, payload)`. -/
structure BlockQueryData where
  header : BlockHeader
  payload : Nat
deriving DecidableEq, Repr

/-- Modelled from the spec: `LeafQueryData::new` lives in the availability
module, which is not under `src/`; per the spec, constructing a Validated
Leaf Record "fails if the leaf and certificate are mutually inconsistent
(mismatched references)". We model the consistency check as the certificate
justifying the leaf's own commitment. -/
def leafQueryDataNew (leaf : Leaf) (qc : QC) : Option LeafQueryData :=
  if qc.justifies = leaf.commitment then some ⟨leaf, qc⟩ else none

/-- The result of the erasure-coding capability's `disperse` operation:
commitment, common parameters, and the per-participant shares. -/
structure Disperse where
  commit : Nat
  common : Nat
  shares : List Nat
deriving DecidableEq, Repr

/-- A storage insert operation, as issued by `update` against the
`UpdateAvailabilityData` capability. -/
inductive StorageOp where
  | insert_leaf (l : LeafQueryData)
  | insert_vid (common : VidCommonQueryData) (share : Option Nat)
  | insert_block (b : BlockQueryData)
deriving DecidableEq, Repr

/-- A logged anomaly, one constructor per `tracing::error!` site in
`update.rs`. -/
inductive LogMsg where
  | vidNotAvailable (block_number : Nat)
  | payloadNotAvailable (block_number : Nat)
  | genesisCommitMismatch (computed header_commit : Nat)
  | genesisVidStoreFailed (e : Nat)
  | genesisVidComputeFailed (e : Nat)
deriving DecidableEq, Repr

/-- An observable effect of `update`: a successfully performed storage
operation, a logged anomaly, or an invocation of the erasure-coding
`disperse` capability. -/
inductive Eff where
  | op (o : StorageOp)
  | log (m : LogMsg)
  | disperseCall (num_storage_nodes : Nat) (bytes : List Nat)
deriving DecidableEq, Repr

/-- The outcome of a call: success, a propagated error, or a panic. -/
inductive UErr where
  | inconsistentLeaf
  | storage (e : Nat)
deriving DecidableEq, Repr

inductive Outcome where
  | ok
  | err (e : UErr)
  | panic
deriving DecidableEq, Repr

/-- The ambient capabilities `update` runs against: the erasure-coding
`disperse` function (`vid_scheme(n).disperse(bytes)`), a storage-fault
oracle (`none` = the insert succeeds, `some e` = it fails with error `e`),
the `GENESIS_VID_NUM_STORAGE_NODES` constant, and the encoding of the
canonical empty payload (`Payload::empty().0.encode()`). -/
structure Ctx where
  disperse : Nat → List Nat → Except Nat Disperse
  oracle : StorageOp → Option Nat
  genesis_vid_num_storage_nodes : Nat
  empty_payload_bytes : List Nat

/-- The chronological certificate sequence built at the top of `update`:
`once(qc).chain(leaf_chain.map(justify_qc)).rev().skip(1)`. -/
def qcSeq (qc : QC) (leaf_chain : List LeafInfo) : List QC :=
  ((qc :: leaf_chain.map (fun li => li.leaf.justify_qc)).reverse).drop 1

/-- The (certificate, leaf) pairs the per-leaf loop iterates over:
`qcs.zip(leaf_chain.iter().rev())`. -/
def reconstruct (qc : QC) (leaf_chain : List LeafInfo) :
    List (QC × LeafInfo) :=
  (qcSeq qc leaf_chain).zip leaf_chain.reverse

/-- `store_genesis_vid`: encode the empty payload, disperse it with the
genesis width, and compare the commitment against the header. Returns the
effect trace and whether the call panicked (`disperse.shares.remove(0)` on
an empty vector). A failed genesis `insert_vid` is logged, not propagated. -/
def store_genesis_vid (ctx : Ctx) (leaf : Leaf) : List Eff × Bool :=
  let call := Eff.disperseCall ctx.genesis_vid_num_storage_nodes
    ctx.empty_payload_bytes
  match ctx.disperse ctx.genesis_vid_num_storage_nodes
      ctx.empty_payload_bytes with
  | .error e => ([call, .log (.genesisVidComputeFailed e)], false)
  | .ok d =>
    if d.commit ≠ leaf.block_header.payload_commitment then
      ([call, .log (.genesisCommitMismatch d.commit
        leaf.block_header.payload_commitment)], false)
    else
      match d.shares with
      | [] => ([call], true)
      | s :: _ =>
        let o := StorageOp.insert_vid ⟨leaf.block_header, d.common⟩ (some s)
        match ctx.oracle o with
        | none => ([call, .op o], false)
        | some e => ([call, .log (.genesisVidStoreFailed e)], false)

/-- The dispersal-resolution step of the loop body (lines 91–111 of
`update.rs`): persist a received share as-is, synthesize for the genesis
leaf, or log an anomaly. -/
def vidStage (ctx : Ctx) (li : LeafInfo) : List Eff × Outcome :=
  match li.vid_share with
  | some vs =>
    let o := StorageOp.insert_vid ⟨li.leaf.block_header, vs.common⟩
      (some vs.share)
    match ctx.oracle o with
    | none => ([.op o], .ok)
    | some e => ([], .err (.storage e))
  | none =>
    if li.leaf.view_number = 0 then
      let r := store_genesis_vid ctx li.leaf
      (r.1, if r.2 then .panic else .ok)
    else
      ([.log (.vidNotAvailable li.leaf.block_header.block_number)], .ok)

/-- The payload-resolution step of the loop body (lines 113–121): persist
the block if the payload is present, otherwise log an anomaly. -/
def blockStage (ctx : Ctx) (li : LeafInfo) : List Eff × Outcome :=
  match li.leaf.block_payload with
  | some pl =>
    let o := StorageOp.insert_block ⟨li.leaf.block_header, pl⟩
    match ctx.oracle o with
    | none => ([.op o], .ok)
    | some e => ([], .err (.storage e))
  | none =>
    ([.log (.payloadNotAvailable li.leaf.block_header.block_number)], .ok)

/-- One iteration of the per-leaf loop: build the validated leaf record
(`LeafQueryData::new(...).context("inconsistent leaf")?`), insert it, then
run the dispersal and payload stages. -/
def processLeaf (ctx : Ctx) (p : QC × LeafInfo) : List Eff × Outcome :=
  match leafQueryDataNew p.2.leaf p.1 with
  | none => ([], .err .inconsistentLeaf)
  | some ld =>
    match ctx.oracle (.insert_leaf ld) with
    | some e => ([], .err (.storage e))
    | none =>
      let v := vidStage ctx p.2
      match v.2 with
      | .ok =>
        let b := blockStage ctx p.2
        (.op (.insert_leaf ld) :: v.1 ++ b.1, b.2)
      | o => (.op (.insert_leaf ld) :: v.1, o)

/-- The loop over the chronological (certificate, leaf) pairs; an error or
panic abandons the remaining pairs. -/
def runPairs (ctx : Ctx) : List (QC × LeafInfo) → List Eff × Outcome
  | [] => ([], .ok)
  | p :: ps =>
    let r := processLeaf ctx p
    match r.2 with
    | .ok =>
      let rest := runPairs ctx ps
      (r.1 ++ rest.1, rest.2)
    | o => (r.1, o)

/-- `UpdateDataSource::update`: react to `Decide` events, ignore every other
event kind. -/
def update (ctx : Ctx) (event : Event) : List Eff × Outcome :=
  match event.event with
  | .Decide leaf_chain qc => runPairs ctx (reconstruct qc leaf_chain)
  | .Other _ => ([], .ok)

/-! ### Model of the versioned data source contract -/

/-- Modelled from the spec: no implementation of `VersionedDataSource` is
under `src/` — the trait only states the contract. Per the spec, `begin_read`
"freezes a consistent snapshot as of this call" and a committed write is
"visible to subsequently-opened transactions, never retroactively to
already-open read transactions". The system state holds the committed store
and, per read-transaction id, the snapshot it froze when opened. -/
structure SysState (σ : Type) where
  committed : σ
  readers : Nat → Option σ

/-- Modelled from the spec: the observable operations of the contract — a
read-only transaction opening (freezing its snapshot) and a write
transaction committing its staged mutation. -/
inductive DSOp (σ : Type) where
  | beginRead (id : Nat)
  | commitWrite (w : σ → σ)

/-- Modelled from the spec: one step of the versioned data source.
`beginRead` snapshots the committed state for that reader; `commitWrite`
atomically applies the staged writes to the committed state, leaving every
open reader's snapshot untouched. -/
def stepDS {σ : Type} (s : SysState σ) : DSOp σ → SysState σ
  | .beginRead id =>
    { s with readers := fun r => if r = id then some s.committed else s.readers r }
  | .commitWrite w => { s with committed := w s.committed }

def runDS {σ : Type} (s : SysState σ) : List (DSOp σ) → SysState σ
  | [] => s
  | o :: os => runDS (stepDS s o) os

/-! ### Concrete fixtures used by the witnesses and counterexamples -/

/-- Certificate justifying the (chronological) first leaf of the batch. -/
def qc1 : QC := ⟨1, 101⟩

def qc2 : QC := ⟨2, 102⟩

def qc3 : QC := ⟨3, 103⟩

/-- Justify certificate of the oldest leaf: it certifies a parent outside
the batch and is never consumed. -/
def qc0 : QC := ⟨0, 100⟩

def leaf1 : Leaf := ⟨1, qc0, ⟨201, 1⟩, some 301, 101⟩

def leaf2 : Leaf := ⟨2, qc1, ⟨202, 2⟩, some 302, 102⟩

def leaf3 : Leaf := ⟨3, qc2, ⟨203, 3⟩, some 303, 103⟩

def li1 : LeafInfo := ⟨leaf1, some ⟨401, 501⟩⟩

def li2 : LeafInfo := ⟨leaf2, some ⟨402, 502⟩⟩

def li3 : LeafInfo := ⟨leaf3, some ⟨403, 503⟩⟩

/-- A newest-first three-leaf decide chain. -/
def chainW : List LeafInfo := [li3, li2, li1]

/-- A context in which every storage insert succeeds and dispersal
computation returns commitment `200`, common `400` and one share `500`. -/
def ctxW : Ctx := ⟨fun _ _ => .ok ⟨200, 400, [500]⟩, fun _ => none, 8, []⟩

/-- A two-leaf newest-first chain whose finalizing certificate is tampered. -/
def chainBad : List LeafInfo := [li2, li1]

/-- A tampered finalizing certificate: justifies commitment `999`, which is
no leaf of the batch. -/
def qcBad : QC := ⟨2, 999⟩

def evBad : Event := ⟨9, .Decide chainBad qcBad⟩

/-- The genesis certificate, justifying the genesis leaf (commitment 110). -/
def qcG : QC := ⟨0, 110⟩

/-- A genesis leaf: view number 0, header payload commitment 200. -/
def leafG : Leaf := ⟨0, ⟨0, 109⟩, ⟨200, 0⟩, some 310, 110⟩

/-- The genesis leaf arrives without a dispersal share. -/
def liG : LeafInfo := ⟨leafG, none⟩

def chainG : List LeafInfo := [liG]

def evG : Event := ⟨0, .Decide chainG qcG⟩

/-- A context whose storage fails exactly the `insert_vid` synthesized for
the genesis leaf (error code 7); dispersal computes commitment 200, which
matches the genesis header. -/
def ctxG : Ctx :=
  ⟨fun _ _ => .ok ⟨200, 400, [500]⟩,
   fun o => if o = .insert_vid ⟨⟨200, 0⟩, 400⟩ (some 500) then some 7 else none,
   8, []⟩

/-- A context whose storage fails every `insert_leaf` with error code 3. -/
def ctxFailLeaf : Ctx :=
  ⟨fun _ _ => .ok ⟨200, 400, [500]⟩,
   fun o => match o with | .insert_leaf _ => some 3 | _ => none, 8, []⟩

/-- A context whose storage fails every `insert_vid` with error code 4. -/
def ctxFailVid : Ctx :=
  ⟨fun _ _ => .ok ⟨200, 400, [500]⟩,
   fun o => match o with | .insert_vid _ _ => some 4 | _ => none, 8, []⟩

/-- A context whose storage fails every `insert_block` with error code 5. -/
def ctxFailBlock : Ctx :=
  ⟨fun _ _ => .ok ⟨200, 400, [500]⟩,
   fun o => match o with | .insert_block _ => some 5 | _ => none, 8, []⟩

/-- A one-leaf decide event over `li1`. -/
def evD : Event := ⟨1, .Decide [li1] qc1⟩

/-- `leaf2` with its payload missing. -/
def leaf2np : Leaf := ⟨2, qc1, ⟨202, 2⟩, none, 102⟩

def li2np : LeafInfo := ⟨leaf2np, some ⟨402, 502⟩⟩

/-- The three-leaf chain in which the (chronologically) middle leaf lacks
its payload. -/
def chain7 : List LeafInfo := [li3, li2np, li1]

def ev7 : Event := ⟨3, .Decide chain7 qc3⟩

/-- `leaf1` (non-genesis, view 1) arriving without a dispersal share. -/
def li1nv : LeafInfo := ⟨leaf1, none⟩

/-- A context whose dispersal computation yields commitment `999`, which
matches no fixture header. -/
def ctxMismatch : Ctx :=
  ⟨fun _ _ => .ok ⟨999, 400, [500]⟩, fun _ => none, 8, []⟩

/-- A context whose dispersal computation itself fails with error 13. -/
def ctxErr : Ctx := ⟨fun _ _ => .error 13, fun _ => none, 8, []⟩

/-- A context whose dispersal computation returns a matching commitment but
an empty share vector. -/
def ctxEmpty : Ctx := ⟨fun _ _ => .ok ⟨200, 400, []⟩, fun _ => none, 8, []⟩

/-- A concrete data source state over `Nat` stores. -/
def sysW : SysState Nat := ⟨0, fun _ => none⟩

/-- Activity happening after the commit under test: another commit and an
unrelated reader opening. -/
def laterW : List (DSOp Nat) := [.commitWrite (fun x => x + 10), .beginRead 3]

end HQS

/-! ### Theorems -/

namespace HQS

/-- Dropping the first element of a reversed list is reversing the list
without its last element. -/
theorem reverse_drop_one {α : Type} (l : List α) :
    l.reverse.drop 1 = l.dropLast.reverse := by
  induction l with
  | nil => rfl
  | cons a t ih =>
      cases t with
      | nil => rfl
      | cons b u =>
          rw [List.reverse_cons, List.drop_append_of_le_length (by simp), ih,
            List.dropLast_cons₂, List.reverse_cons]

theorem qcSeq_length (qc : QC) (c : List LeafInfo) :
    (qcSeq qc c).length = c.length := by
  simp [qcSeq]

/-- On a nonempty chain, the chronological certificate sequence is the
justify certificates of all but the oldest leaf, oldest first, followed by
the finalizing certificate. -/
theorem qcSeq_eq (qc : QC) (c : List LeafInfo) (h : c ≠ []) :
    qcSeq qc c
      = (c.dropLast.map (fun li => li.leaf.justify_qc)).reverse ++ [qc] := by
  unfold qcSeq
  rw [List.reverse_cons,
    List.drop_append_of_le_length (by simpa using List.length_pos.mpr h),
    reverse_drop_one, List.map_dropLast]

theorem reconstruct_length (qc : QC) (c : List LeafInfo) :
    (reconstruct qc c).length = c.length := by
  simp [reconstruct, qcSeq_length]

theorem reconstruct_map_snd (qc : QC) (c : List LeafInfo) :
    (reconstruct qc c).map Prod.snd = c.reverse :=
  List.map_snd_zip _ _ (by simp [qcSeq_length])

theorem reconstruct_map_fst (qc : QC) (c : List LeafInfo) :
    (reconstruct qc c).map Prod.fst = qcSeq qc c :=
  List.map_fst_zip _ _ (by simp [qcSeq_length])

/-- C1: for a decide notification whose newest-first leaf chain has strictly
decreasing view numbers, the reconstruction inside `update` produces exactly
`n` (certificate, leaf) pairs; pair `i`'s leaf is chronological leaf `i`
(the paired leaves are exactly `leaf_chain.reverse`), so the pairs are in
chronological order with strictly increasing view numbers. -/
theorem C1_reconstruction_pairs (qc : QC) (leaf_chain : List LeafInfo)
    (hmono : List.Chain'
      (fun a b => b.leaf.view_number < a.leaf.view_number) leaf_chain) :
    (reconstruct qc leaf_chain).length = leaf_chain.length ∧
    (reconstruct qc leaf_chain).map Prod.snd = leaf_chain.reverse ∧
    List.Chain' (fun p q => p.2.leaf.view_number < q.2.leaf.view_number)
      (reconstruct qc leaf_chain) := by
  refine ⟨reconstruct_length qc leaf_chain, reconstruct_map_snd qc leaf_chain, ?_⟩
  have h1 : List.Chain'
      (fun a b : LeafInfo => a.leaf.view_number < b.leaf.view_number)
      ((reconstruct qc leaf_chain).map Prod.snd) := by
    rw [reconstruct_map_snd, List.chain'_reverse]
    exact hmono
  exact (List.chain'_map Prod.snd).mp h1

theorem C1_reconstruction_pairs_witness :
    List.Chain' (fun a b => b.leaf.view_number < a.leaf.view_number) chainW ∧
    ((reconstruct qc3 chainW).length = chainW.length ∧
     (reconstruct qc3 chainW).map Prod.snd = chainW.reverse ∧
     List.Chain' (fun p q => p.2.leaf.view_number < q.2.leaf.view_number)
       (reconstruct qc3 chainW)) :=
  ⟨by simp [chainW, li1, li2, li3, leaf1, leaf2, leaf3, List.chain'_cons],
   C1_reconstruction_pairs qc3 chainW
     (by simp [chainW, li1, li2, li3, leaf1, leaf2, leaf3, List.chain'_cons])⟩

/-- C2: on a nonempty chain, exactly one certificate is consumed per leaf.
The list of consumed certificates is the justify certificates of all leaves
but the oldest (each consumed by its parent, one position older), followed
by the finalizing certificate; the justify certificate of the oldest leaf is
dropped and never paired. The last (newest) pair is the finalizing
certificate with the chain's head. -/
theorem C2_certificate_consumption (qc : QC) (leaf_chain : List LeafInfo)
    (h : leaf_chain ≠ []) :
    (reconstruct qc leaf_chain).length = leaf_chain.length ∧
    (reconstruct qc leaf_chain).map Prod.fst
      = (leaf_chain.dropLast.map (fun li => li.leaf.justify_qc)).reverse
          ++ [qc] ∧
    (reconstruct qc leaf_chain).map Prod.snd = leaf_chain.reverse ∧
    (reconstruct qc leaf_chain).getLast?
      = leaf_chain.head?.map (fun li => (qc, li)) := by
  have hfst : (reconstruct qc leaf_chain).map Prod.fst
      = (leaf_chain.dropLast.map (fun li => li.leaf.justify_qc)).reverse
          ++ [qc] := by
    rw [reconstruct_map_fst, qcSeq_eq _ _ h]
  refine ⟨reconstruct_length _ _, hfst, reconstruct_map_snd _ _, ?_⟩
  have h1 : ((reconstruct qc leaf_chain).getLast?).map Prod.fst = some qc := by
    rw [← List.getLast?_map, hfst, List.getLast?_concat]
  have h2 : ((reconstruct qc leaf_chain).getLast?).map Prod.snd
      = leaf_chain.head? := by
    rw [← List.getLast?_map, reconstruct_map_snd, List.getLast?_reverse]
  cases hp : (reconstruct qc leaf_chain).getLast? with
  | none => rw [hp] at h1; simp at h1
  | some p =>
      obtain ⟨p1, p2⟩ := p
      rw [hp] at h1 h2
      simp only [Option.map_some', Option.some.injEq] at h1
      subst h1
      rw [← h2]
      rfl

theorem C2_certificate_consumption_witness :
    chainW ≠ [] ∧
    ((reconstruct qc3 chainW).length = chainW.length ∧
     (reconstruct qc3 chainW).map Prod.fst
       = (chainW.dropLast.map (fun li => li.leaf.justify_qc)).reverse
           ++ [qc3] ∧
     (reconstruct qc3 chainW).map Prod.snd = chainW.reverse ∧
     (reconstruct qc3 chainW).getLast?
       = chainW.head?.map (fun li => (qc3, li))) :=
  ⟨by decide, C2_certificate_consumption qc3 chainW (by decide)⟩

end HQS

namespace HQS

/-- A pair whose certificate does not justify its leaf fails immediately
with the inconsistent-leaf error and performs nothing. -/
theorem processLeaf_inconsistent (ctx : Ctx) (p : QC × LeafInfo)
    (h : leafQueryDataNew p.2.leaf p.1 = none) :
    processLeaf ctx p = ([], .err .inconsistentLeaf) := by
  simp [processLeaf, h]

theorem runPairs_cons_ok (ctx : Ctx) (p : QC × LeafInfo)
    (ps : List (QC × LeafInfo)) (h : (processLeaf ctx p).2 = .ok) :
    runPairs ctx (p :: ps)
      = ((processLeaf ctx p).1 ++ (runPairs ctx ps).1, (runPairs ctx ps).2) := by
  simp [runPairs, h]

theorem runPairs_cons_notok (ctx : Ctx) (p : QC × LeafInfo)
    (ps : List (QC × LeafInfo)) (h : (processLeaf ctx p).2 ≠ .ok) :
    runPairs ctx (p :: ps) = processLeaf ctx p := by
  rcases ho : (processLeaf ctx p).2 with _ | e | _
  · exact absurd ho h
  · have : runPairs ctx (p :: ps)
        = ((processLeaf ctx p).1, (processLeaf ctx p).2) := by
      simp [runPairs, ho]
    rw [this]
  · have : runPairs ctx (p :: ps)
        = ((processLeaf ctx p).1, (processLeaf ctx p).2) := by
      simp [runPairs, ho]
    rw [this]

/-- If the first `k` pairs succeed and pair `k` does not, the loop performs
exactly the effects of the first `k` pairs followed by those of pair `k`,
and ends with pair `k`'s outcome: the remaining pairs are abandoned. -/
theorem runPairs_first_err (ctx : Ctx) (pairs : List (QC × LeafInfo))
    (k : Nat) (hk : k < pairs.length)
    (hok : ∀ j : Fin pairs.length, j.val < k →
      (processLeaf ctx (pairs.get j)).2 = .ok)
    (herr : (processLeaf ctx (pairs.get ⟨k, hk⟩)).2 ≠ .ok) :
    runPairs ctx pairs
      = (((pairs.take k).map (fun p => (processLeaf ctx p).1)).flatten
           ++ (processLeaf ctx (pairs.get ⟨k, hk⟩)).1,
         (processLeaf ctx (pairs.get ⟨k, hk⟩)).2) := by
  induction pairs generalizing k with
  | nil => exact absurd hk (by simp)
  | cons p ps ih =>
      cases k with
      | zero =>
          rw [runPairs_cons_notok ctx p ps herr]
          simp
      | succ k =>
          have h0 : (processLeaf ctx p).2 = .ok :=
            hok ⟨0, by simp⟩ (Nat.succ_pos k)
          rw [runPairs_cons_ok ctx p ps h0]
          have hk' : k < ps.length := by
            simp only [List.length_cons] at hk
            omega
          have hok' : ∀ j : Fin ps.length, j.val < k →
              (processLeaf ctx (ps.get j)).2 = .ok := by
            intro j hj
            exact hok ⟨j.val + 1, by simp⟩ (Nat.succ_lt_succ hj)
          have herr' : (processLeaf ctx (ps.get ⟨k, hk'⟩)).2 ≠ .ok := herr
          rw [ih k hk' hok' herr']
          simp [List.append_assoc]

/-- C3: if, with every earlier pair of the batch succeeding, constructing
the validated leaf record of pair `k` fails, then `update` returns the
inconsistent-leaf error, its effect trace is exactly that of the first `k`
pairs (so no leaf at or after position `k` is inserted), and every effect
performed belongs to a pair strictly before the failing position. -/
theorem C3_inconsistent_leaf_aborts (ctx : Ctx) (event : Event)
    (leaf_chain : List LeafInfo) (qc : QC) (k : Nat)
    (hev : event.event = .Decide leaf_chain qc)
    (hk : k < (reconstruct qc leaf_chain).length)
    (hok : ∀ j : Fin (reconstruct qc leaf_chain).length, j.val < k →
      (processLeaf ctx ((reconstruct qc leaf_chain).get j)).2 = .ok)
    (hfail : leafQueryDataNew
      ((reconstruct qc leaf_chain).get ⟨k, hk⟩).2.leaf
      ((reconstruct qc leaf_chain).get ⟨k, hk⟩).1 = none) :
    (update ctx event).2 = .err .inconsistentLeaf ∧
    (update ctx event).1
      = (((reconstruct qc leaf_chain).take k).map
          (fun p => (processLeaf ctx p).1)).flatten ∧
    ∀ e ∈ (update ctx event).1,
      ∃ p ∈ (reconstruct qc leaf_chain).take k, e ∈ (processLeaf ctx p).1 := by
  have hpl := processLeaf_inconsistent ctx _ hfail
  have herr : (processLeaf ctx
      ((reconstruct qc leaf_chain).get ⟨k, hk⟩)).2 ≠ .ok := by
    rw [hpl]
    simp
  have hupd : update ctx event = runPairs ctx (reconstruct qc leaf_chain) := by
    simp [update, hev]
  have hrun := runPairs_first_err ctx _ k hk hok herr
  rw [hupd, hrun, hpl]
  refine ⟨rfl, by simp, ?_⟩
  intro e he
  simp only [List.append_nil] at he
  obtain ⟨s, hs, hes⟩ := List.mem_flatten.mp he
  obtain ⟨p, hp, rfl⟩ := List.mem_map.mp hs
  exact ⟨p, hp, hes⟩

theorem C3_inconsistent_leaf_aborts_witness :
    evBad.event = .Decide chainBad qcBad ∧
    1 < (reconstruct qcBad chainBad).length ∧
    (∀ j : Fin (reconstruct qcBad chainBad).length, j.val < 1 →
      (processLeaf ctxW ((reconstruct qcBad chainBad).get j)).2 = .ok) ∧
    leafQueryDataNew
      ((reconstruct qcBad chainBad).get ⟨1, by decide⟩).2.leaf
      ((reconstruct qcBad chainBad).get ⟨1, by decide⟩).1 = none ∧
    ((update ctxW evBad).2 = .err .inconsistentLeaf ∧
     (update ctxW evBad).1
       = (((reconstruct qcBad chainBad).take 1).map
           (fun p => (processLeaf ctxW p).1)).flatten ∧
     ∀ e ∈ (update ctxW evBad).1,
       ∃ p ∈ (reconstruct qcBad chainBad).take 1,
         e ∈ (processLeaf ctxW p).1) :=
  ⟨rfl, by decide, by decide, by decide,
   C3_inconsistent_leaf_aborts ctxW evBad chainBad qcBad 1 rfl (by decide)
     (by decide) (by decide)⟩

end HQS

namespace HQS

/-- C4 counterexample: the claim that every failing storage insert —
including the `insert_vid` performed for the synthesized genesis dispersal
record — is fatal and propagated is false. In `ctxG` the genesis
`insert_vid` fails with error 7, yet `update` merely logs the failure and
returns success. -/
theorem C4_counterexample :
    ctxG.oracle (.insert_vid ⟨⟨200, 0⟩, 400⟩ (some 500)) = some 7 ∧
    Eff.log (.genesisVidStoreFailed 7) ∈ (update ctxG evG).1 ∧
    (update ctxG evG).2 = .ok := by
  decide

/-- C4 (amended): every failure of `insert_leaf`, of `insert_block`, and of
the `insert_vid` issued for a leaf carrying a received dispersal share is
fatal to the enclosing `update` call and propagated as-is with no internal
retry; the one exception is the `insert_vid` performed for the synthesized
genesis dispersal record, whose failure is logged and swallowed so that the
update continues. -/
theorem C4_storage_fault_propagation (ctx : Ctx) :
    (∀ (p : QC × LeafInfo) (ld : LeafQueryData) (e : Nat),
      leafQueryDataNew p.2.leaf p.1 = some ld →
      ctx.oracle (.insert_leaf ld) = some e →
      processLeaf ctx p = ([], .err (.storage e))) ∧
    (∀ (li : LeafInfo) (vs : VidShare) (e : Nat),
      li.vid_share = some vs →
      ctx.oracle (.insert_vid ⟨li.leaf.block_header, vs.common⟩
        (some vs.share)) = some e →
      vidStage ctx li = ([], .err (.storage e))) ∧
    (∀ (li : LeafInfo) (pl : Nat) (e : Nat),
      li.leaf.block_payload = some pl →
      ctx.oracle (.insert_block ⟨li.leaf.block_header, pl⟩) = some e →
      blockStage ctx li = ([], .err (.storage e))) ∧
    (∀ (event : Event) (leaf_chain : List LeafInfo) (qc : QC) (k e : Nat),
      event.event = .Decide leaf_chain qc →
      ∀ (hk : k < (reconstruct qc leaf_chain).length),
      (∀ j : Fin (reconstruct qc leaf_chain).length, j.val < k →
        (processLeaf ctx ((reconstruct qc leaf_chain).get j)).2 = .ok) →
      (processLeaf ctx ((reconstruct qc leaf_chain).get ⟨k, hk⟩)).2
        = .err (.storage e) →
      (update ctx event).2 = .err (.storage e)) ∧
    (∀ (leaf : Leaf) (d : Disperse) (s : Nat) (rest : List Nat) (e : Nat),
      ctx.disperse ctx.genesis_vid_num_storage_nodes ctx.empty_payload_bytes
        = .ok d →
      d.commit = leaf.block_header.payload_commitment →
      d.shares = s :: rest →
      ctx.oracle (.insert_vid ⟨leaf.block_header, d.common⟩ (some s))
        = some e →
      store_genesis_vid ctx leaf
        = ([.disperseCall ctx.genesis_vid_num_storage_nodes
             ctx.empty_payload_bytes,
            .log (.genesisVidStoreFailed e)], false)) := by
  refine ⟨?_, ?_, ?_, ?_, ?_⟩
  · intro p ld e h1 h2
    simp [processLeaf, h1, h2]
  · intro li vs e h1 h2
    simp [vidStage, h1, h2]
  · intro li pl e h1 h2
    simp [blockStage, h1, h2]
  · intro event leaf_chain qc k e hev hk hok he
    have herr : (processLeaf ctx
        ((reconstruct qc leaf_chain).get ⟨k, hk⟩)).2 ≠ .ok := by
      rw [he]
      simp
    have hrun := runPairs_first_err ctx _ k hk hok herr
    have hupd : update ctx event
        = runPairs ctx (reconstruct qc leaf_chain) := by
      simp [update, hev]
    rw [hupd, hrun]
    simpa using he
  · intro leaf d s rest e hd hc hs ho
    simp [store_genesis_vid, hd, hc, hs, ho]

theorem C4_storage_fault_propagation_witness :
    leafQueryDataNew leaf1 qc1 = some ⟨leaf1, qc1⟩ ∧
    ctxFailLeaf.oracle (.insert_leaf ⟨leaf1, qc1⟩) = some 3 ∧
    processLeaf ctxFailLeaf (qc1, li1) = ([], .err (.storage 3)) ∧
    vidStage ctxFailVid li1 = ([], .err (.storage 4)) ∧
    blockStage ctxFailBlock li1 = ([], .err (.storage 5)) ∧
    (update ctxFailVid evD).2 = .err (.storage 4) ∧
    store_genesis_vid ctxG leafG
      = ([.disperseCall 8 [], .log (.genesisVidStoreFailed 7)], false) :=
  ⟨by decide, by decide,
   (C4_storage_fault_propagation ctxFailLeaf).1 (qc1, li1) ⟨leaf1, qc1⟩ 3
     (by decide) (by decide),
   (C4_storage_fault_propagation ctxFailVid).2.1 li1 ⟨401, 501⟩ 4
     (by decide) (by decide),
   (C4_storage_fault_propagation ctxFailBlock).2.2.1 li1 301 5
     (by decide) (by decide),
   (C4_storage_fault_propagation ctxFailVid).2.2.2.1 evD [li1] qc1 0 4 rfl
     (by decide) (by decide) (by decide),
   (C4_storage_fault_propagation ctxG).2.2.2.2 leafG ⟨200, 400, [500]⟩ 500 []
     7 rfl (by decide) (by decide) (by decide)⟩

end HQS

namespace HQS

/-- C5: the three-way dispersal policy of the loop body. A received share
is persisted as-is via `insert_vid`; with no share and view number 0 the
genesis synthesis is invoked; otherwise an anomaly is logged, no dispersal
record is persisted for that leaf, and the stage reports success so the
batch continues. -/
theorem C5_dispersal_policy (ctx : Ctx) (li : LeafInfo) :
    (∀ vs : VidShare, li.vid_share = some vs →
      ctx.oracle (.insert_vid ⟨li.leaf.block_header, vs.common⟩
        (some vs.share)) = none →
      vidStage ctx li
        = ([.op (.insert_vid ⟨li.leaf.block_header, vs.common⟩
            (some vs.share))], .ok)) ∧
    (li.vid_share = none → li.leaf.view_number = 0 →
      vidStage ctx li = ((store_genesis_vid ctx li.leaf).1,
        if (store_genesis_vid ctx li.leaf).2 then .panic else .ok)) ∧
    (li.vid_share = none → li.leaf.view_number ≠ 0 →
      vidStage ctx li
        = ([.log (.vidNotAvailable li.leaf.block_header.block_number)], .ok)
      ∧ ∀ c s, Eff.op (.insert_vid c s) ∉ (vidStage ctx li).1) := by
  refine ⟨?_, ?_, ?_⟩
  · intro vs h1 h2
    simp [vidStage, h1, h2]
  · intro h1 h2
    simp [vidStage, h1, h2]
  · intro h1 h2
    refine ⟨by simp [vidStage, h1, h2], ?_⟩
    intro c s
    simp [vidStage, h1, h2]

theorem C5_dispersal_policy_witness :
    li1.vid_share = some ⟨401, 501⟩ ∧
    vidStage ctxW li1
      = ([.op (.insert_vid ⟨⟨201, 1⟩, 401⟩ (some 501))], .ok) ∧
    (liG.vid_share = none ∧ liG.leaf.view_number = 0) ∧
    vidStage ctxG liG = ((store_genesis_vid ctxG liG.leaf).1,
      if (store_genesis_vid ctxG liG.leaf).2 then .panic else .ok) ∧
    (li1nv.vid_share = none ∧ li1nv.leaf.view_number ≠ 0) ∧
    (vidStage ctxW li1nv = ([.log (.vidNotAvailable 1)], .ok)
      ∧ ∀ c s, Eff.op (.insert_vid c s) ∉ (vidStage ctxW li1nv).1) :=
  ⟨by decide,
   (C5_dispersal_policy ctxW li1).1 ⟨401, 501⟩ (by decide) (by decide),
   by decide,
   (C5_dispersal_policy ctxG liG).2.1 (by decide) (by decide),
   by decide,
   (C5_dispersal_policy ctxW li1nv).2.2 (by decide) (by decide)⟩

/-- C6: genesis dispersal synthesis. On a commitment mismatch nothing is
stored, the divergence is logged, and the call neither errors nor panics;
on a match the common parameters and the first share are persisted; when
the erasure-coding computation fails nothing is stored and the call
continues. -/
theorem C6_genesis_synthesis (ctx : Ctx) (leaf : Leaf) :
    (∀ d : Disperse,
      ctx.disperse ctx.genesis_vid_num_storage_nodes ctx.empty_payload_bytes
        = .ok d →
      d.commit ≠ leaf.block_header.payload_commitment →
      store_genesis_vid ctx leaf
        = ([.disperseCall ctx.genesis_vid_num_storage_nodes
             ctx.empty_payload_bytes,
            .log (.genesisCommitMismatch d.commit
              leaf.block_header.payload_commitment)], false)) ∧
    (∀ (d : Disperse) (s : Nat) (rest : List Nat),
      ctx.disperse ctx.genesis_vid_num_storage_nodes ctx.empty_payload_bytes
        = .ok d →
      d.commit = leaf.block_header.payload_commitment →
      d.shares = s :: rest →
      ctx.oracle (.insert_vid ⟨leaf.block_header, d.common⟩ (some s))
        = none →
      store_genesis_vid ctx leaf
        = ([.disperseCall ctx.genesis_vid_num_storage_nodes
             ctx.empty_payload_bytes,
            .op (.insert_vid ⟨leaf.block_header, d.common⟩ (some s))],
           false)) ∧
    (∀ e : Nat,
      ctx.disperse ctx.genesis_vid_num_storage_nodes ctx.empty_payload_bytes
        = .error e →
      store_genesis_vid ctx leaf
        = ([.disperseCall ctx.genesis_vid_num_storage_nodes
             ctx.empty_payload_bytes,
            .log (.genesisVidComputeFailed e)], false)) := by
  refine ⟨?_, ?_, ?_⟩
  · intro d hd hne
    simp [store_genesis_vid, hd, hne]
  · intro d s rest hd hc hs ho
    simp [store_genesis_vid, hd, hc, hs, ho]
  · intro e he
    simp [store_genesis_vid, he]

theorem C6_genesis_synthesis_witness :
    (ctxMismatch.disperse 8 [] = .ok ⟨999, 400, [500]⟩ ∧
     (999 : Nat) ≠ leafG.block_header.payload_commitment) ∧
    store_genesis_vid ctxMismatch leafG
      = ([.disperseCall 8 [], .log (.genesisCommitMismatch 999 200)],
         false) ∧
    store_genesis_vid ctxW leafG
      = ([.disperseCall 8 [],
          .op (.insert_vid ⟨⟨200, 0⟩, 400⟩ (some 500))], false) ∧
    (ctxErr.disperse 8 [] = .error 13) ∧
    store_genesis_vid ctxErr leafG
      = ([.disperseCall 8 [], .log (.genesisVidComputeFailed 13)], false) :=
  ⟨⟨rfl, by decide⟩,
   (C6_genesis_synthesis ctxMismatch leafG).1 ⟨999, 400, [500]⟩ rfl
     (by decide),
   (C6_genesis_synthesis ctxW leafG).2.1 ⟨200, 400, [500]⟩ 500 [] rfl
     (by decide) (by decide) (by decide),
   rfl,
   (C6_genesis_synthesis ctxErr leafG).2.2 13 rfl⟩

/-- C7: the payload policy. A present payload is persisted as a
(header, payload) block record; an absent payload is logged, no block
record is persisted for that leaf, and the stage succeeds. On the concrete
three-leaf batch `ev7`, whose middle leaf lacks its payload, `update`
persists leaves 1 and 3 fully, persists leaf 2 without a block record, and
returns overall success. -/
theorem C7_payload_policy (ctx : Ctx) (li : LeafInfo) :
    (∀ pl : Nat, li.leaf.block_payload = some pl →
      ctx.oracle (.insert_block ⟨li.leaf.block_header, pl⟩) = none →
      blockStage ctx li
        = ([.op (.insert_block ⟨li.leaf.block_header, pl⟩)], .ok)) ∧
    (li.leaf.block_payload = none →
      blockStage ctx li
        = ([.log (.payloadNotAvailable li.leaf.block_header.block_number)],
           .ok)
      ∧ ∀ b, Eff.op (.insert_block b) ∉ (blockStage ctx li).1) ∧
    update ctxW ev7
      = ([.op (.insert_leaf ⟨leaf1, qc1⟩),
          .op (.insert_vid ⟨⟨201, 1⟩, 401⟩ (some 501)),
          .op (.insert_block ⟨⟨201, 1⟩, 301⟩),
          .op (.insert_leaf ⟨leaf2np, qc2⟩),
          .op (.insert_vid ⟨⟨202, 2⟩, 402⟩ (some 502)),
          .log (.payloadNotAvailable 2),
          .op (.insert_leaf ⟨leaf3, qc3⟩),
          .op (.insert_vid ⟨⟨203, 3⟩, 403⟩ (some 503)),
          .op (.insert_block ⟨⟨203, 3⟩, 303⟩)], .ok) := by
  refine ⟨?_, ?_, by decide⟩
  · intro pl h1 h2
    simp [blockStage, h1, h2]
  · intro h1
    refine ⟨by simp [blockStage, h1], ?_⟩
    intro b
    simp [blockStage, h1]

theorem C7_payload_policy_witness :
    li1.leaf.block_payload = some 301 ∧
    blockStage ctxW li1 = ([.op (.insert_block ⟨⟨201, 1⟩, 301⟩)], .ok) ∧
    li2np.leaf.block_payload = none ∧
    (blockStage ctxW li2np = ([.log (.payloadNotAvailable 2)], .ok)
      ∧ ∀ b, Eff.op (.insert_block b) ∉ (blockStage ctxW li2np).1) :=
  ⟨by decide,
   (C7_payload_policy ctxW li1).1 301 (by decide) (by decide),
   by decide,
   (C7_payload_policy ctxW li2np).2.1 (by decide)⟩

/-- C8: `update` reacts only to decide events. Any event whose kind is not
`Decide` produces no storage operation, no log, no dispersal computation,
and the call returns success. -/
theorem C8_non_decide_is_noop (ctx : Ctx) (event : Event)
    (h : ∀ (leaf_chain : List LeafInfo) (qc : QC),
      event.event ≠ .Decide leaf_chain qc) :
    update ctx event = ([], .ok) := by
  cases hev : event.event with
  | Decide lc qc => exact absurd hev (h lc qc)
  | Other k => simp [update, hev]

theorem C8_non_decide_is_noop_witness :
    (∀ (leaf_chain : List LeafInfo) (qc : QC),
      (Event.mk 2 (.Other 5)).event ≠ .Decide leaf_chain qc) ∧
    update ctxW ⟨2, .Other 5⟩ = ([], .ok) :=
  ⟨fun _ _ hc => EventType.noConfusion hc,
   C8_non_decide_is_noop ctxW ⟨2, .Other 5⟩
     (fun _ _ hc => EventType.noConfusion hc)⟩

end HQS

namespace HQS

/-- A reader's frozen snapshot survives any later activity that does not
re-open the same reader id. -/
theorem runDS_readers_stable {σ : Type} (later : List (DSOp σ)) :
    ∀ (s : SysState σ) (r : Nat),
    (∀ id, DSOp.beginRead (σ := σ) id ∈ later → id ≠ r) →
    (runDS s later).readers r = s.readers r := by
  induction later with
  | nil => intro s r _; rfl
  | cons o os ih =>
      intro s r h
      have hstep : (stepDS s o).readers r = s.readers r := by
        cases o with
        | beginRead id =>
            have hne : r ≠ id := Ne.symm (h id (by simp))
            simp [stepDS, hne]
        | commitWrite w => rfl
      calc (runDS s (o :: os)).readers r
          = (runDS (stepDS s o) os).readers r := rfl
        _ = (stepDS s o).readers r :=
            ih (stepDS s o) r (fun id hid => h id (by simp [hid]))
        _ = s.readers r := hstep

/-- C9: snapshot isolation of the versioned data source contract. When
reader `r1` opens, a write commits, reader `r2` opens, and arbitrary
further activity (not re-opening `r1` or `r2`) runs, `r2` — opened strictly
after the commit — observes the committed effects, while `r1` — opened
strictly before the commit and still open — observes the pre-commit
state. -/
theorem C9_snapshot_isolation {σ : Type} (s : SysState σ) (w : σ → σ)
    (r1 r2 : Nat) (later : List (DSOp σ)) (hne : r1 ≠ r2)
    (hlater : ∀ id, DSOp.beginRead (σ := σ) id ∈ later →
      id ≠ r1 ∧ id ≠ r2) :
    (runDS (stepDS (stepDS (stepDS s (.beginRead r1)) (.commitWrite w))
        (.beginRead r2)) later).readers r2 = some (w s.committed) ∧
    (runDS (stepDS (stepDS (stepDS s (.beginRead r1)) (.commitWrite w))
        (.beginRead r2)) later).readers r1 = some s.committed := by
  have h2 := runDS_readers_stable later
    (stepDS (stepDS (stepDS s (.beginRead r1)) (.commitWrite w))
      (.beginRead r2)) r2 (fun id hid => (hlater id hid).2)
  have h1 := runDS_readers_stable later
    (stepDS (stepDS (stepDS s (.beginRead r1)) (.commitWrite w))
      (.beginRead r2)) r1 (fun id hid => (hlater id hid).1)
  constructor
  · rw [h2]
    simp [stepDS]
  · rw [h1]
    simp [stepDS, hne]

theorem C9_snapshot_isolation_witness :
    (1 : Nat) ≠ 2 ∧
    (∀ id, DSOp.beginRead (σ := Nat) id ∈ laterW → id ≠ 1 ∧ id ≠ 2) ∧
    ((runDS (stepDS (stepDS (stepDS sysW (.beginRead 1))
        (.commitWrite (fun x => x + 1))) (.beginRead 2)) laterW).readers 2
      = some ((fun x => x + 1) sysW.committed) ∧
     (runDS (stepDS (stepDS (stepDS sysW (.beginRead 1))
        (.commitWrite (fun x => x + 1))) (.beginRead 2)) laterW).readers 1
      = some sysW.committed) :=
  ⟨by decide,
   by
     intro id hid
     simp only [laterW, List.mem_cons, List.not_mem_nil, or_false] at hid
     rcases hid with h | h
     · exact absurd h (by intro hc; cases hc)
     · cases h; omega,
   C9_snapshot_isolation sysW (fun x => x + 1) 1 2 laterW (by decide)
     (by
       intro id hid
       simp only [laterW, List.mem_cons, List.not_mem_nil, or_false] at hid
       rcases hid with h | h
       · exact absurd h (by intro hc; cases hc)
       · cases h; omega)⟩

/-- C10: inside `store_genesis_vid`, removing index 0 of the returned share
vector is only safe when the erasure-coding capability returns at least one
share. With a matching commitment and a nonempty share vector the call
completes without panicking; with an empty share vector it panics — it
neither returns an error nor logs one — and the panic surfaces through the
dispersal stage of the genesis leaf. -/
theorem C10_genesis_share_removal (ctx : Ctx) (leaf : Leaf) (d : Disperse)
    (hd : ctx.disperse ctx.genesis_vid_num_storage_nodes
      ctx.empty_payload_bytes = .ok d)
    (hc : d.commit = leaf.block_header.payload_commitment) :
    (∀ s rest, d.shares = s :: rest →
      (store_genesis_vid ctx leaf).2 = false) ∧
    (d.shares = [] →
      store_genesis_vid ctx leaf
        = ([.disperseCall ctx.genesis_vid_num_storage_nodes
             ctx.empty_payload_bytes], true)) ∧
    (∀ li : LeafInfo, li.leaf = leaf → li.vid_share = none →
      leaf.view_number = 0 → d.shares = [] →
      (vidStage ctx li).2 = .panic) := by
  refine ⟨?_, ?_, ?_⟩
  · intro s rest hs
    rcases ho : ctx.oracle (.insert_vid ⟨leaf.block_header, d.common⟩
        (some s)) with _ | e
    · simp [store_genesis_vid, hd, hc, hs, ho]
    · simp [store_genesis_vid, hd, hc, hs, ho]
  · intro hs
    simp [store_genesis_vid, hd, hc, hs]
  · intro li hle hvs hv hs
    simp [vidStage, hvs, hle, hv, store_genesis_vid, hd, hc, hs]

theorem C10_genesis_share_removal_witness :
    (ctxEmpty.disperse 8 [] = .ok ⟨200, 400, []⟩ ∧
     (200 : Nat) = leafG.block_header.payload_commitment) ∧
    store_genesis_vid ctxEmpty leafG = ([.disperseCall 8 []], true) ∧
    (vidStage ctxEmpty liG).2 = .panic ∧
    (store_genesis_vid ctxW leafG).2 = false :=
  ⟨⟨rfl, by decide⟩,
   (C10_genesis_share_removal ctxEmpty leafG ⟨200, 400, []⟩ rfl
     (by decide)).2.1 rfl,
   (C10_genesis_share_removal ctxEmpty leafG ⟨200, 400, []⟩ rfl
     (by decide)).2.2 liG (by decide) (by decide) (by decide) rfl,
   (C10_genesis_share_removal ctxW leafG ⟨200, 400, [500]⟩ rfl
     (by decide)).1 500 [] rfl⟩

end HQS
